import Mathlib

/-!
Shallow embedding of `src/accera/python/accera/lang/Plan.py` (class `Plan`):
a two-phase command system for loop-nest hardware-mapping transformations
(unroll, parallelize, multi-level caching, GPU grid inference, buffer packing).

Modelling choices:
* `LoopIndex` handles are opaque identity tokens, modelled as `Nat` ids
  (equality of ids is Python identity equality of the handle objects).
* Python in-place mutation plus exceptions is modelled by state passing:
  an operation returns the (possibly partially mutated) plan together with
  `Option PErr` or `Except PErr α`; an error result carries the state as
  mutated up to the raise point, exactly as the Python object would be.
* External collaborators that are not under `src/` (the schedule order
  provider, the target descriptor, the deferred parameter provider, the
  native context; spec section 6) are modelled as plain data or
  environments passed to the operations, following the spec's contracts.
* Each Python `ValueError`/`RuntimeError`/`TypeError` raise site gets its
  own `PErr` constructor, so distinct error messages stay distinguishable.
-/

/-- A symbolic loop index: an opaque, identity-comparable handle for one
dimension of an iteration space (spec section 3). -/
abbrev LoopIndex := Nat

/-- Roles of an `Array` buffer (`Array.Role` in the accera sources). -/
inductive Role where
  | CONST | INPUT | OUTPUT | TEMP
  deriving DecidableEq, Repr

/-- Target category (`Target.Category`), read from the target descriptor. -/
inductive Category where
  | CPU | GPU | OTHER
  deriving DecidableEq, Repr

/-- Runtime-library dependencies (`Platforms.LibraryDependency`). -/
inductive LibraryDependency where
  | VULKAN | OPENMP
  deriving DecidableEq, Repr

/-- Index transform kinds recorded by the schedule (`Schedule.IndexTransform`);
`Plan._build_native_context` only distinguishes `SPLIT` from the rest. -/
inductive IndexTransform where
  | SPLIT | OTHER
  deriving DecidableEq, Repr

/-- The errors raised by `Plan.py`, one constructor per raise site (plus the
runtime errors Python itself raises on the operations the code performs).
`typeError` is iteration over a non-iterable, `valueErrorNotInList` is
`list.index(x)` for an absent `x`, `indexError` is sequence index out of
range, `keyError` is a failed native-mapping dict lookup. -/
inductive PErr where
  | typeError
  | valueErrorNotInList
  | indexError
  | zeroDivisionError
  | keyError
  | notImplementedThrifty
  | ambiguousCacheSize
  | budgetNotPositive
  | conflictIndexLevel
  | conflictLevelIndex
  | invalidMulticacheSource
  | conflictTriggerSpec
  | triggerBeforeLevel
  | invalidCacheLevel
  | invalidCacheTriggerLevel
  | sourceCacheUnderspecified
  | hierarchyModeMismatch
  | invalidHierarchyBudget
  | invalidHierarchyLevelOrder
  | invalidHierarchyLevelTrigger
  | nonContiguousIndices
  | invalidRole
  | indivisibleShape
  deriving DecidableEq, Repr

/-- An `Array` buffer argument (`lang.Array`): identity, role and the
requested layout that `Plan.cache` reads (`source._requested_layout`). -/
structure Array' where
  id : Nat
  role : Role
  requested_layout : Option Nat
  deriving DecidableEq, Repr

/-- The `source` argument of `Plan.cache`: an `Array`, a completed `Cache`
(abstracted to the fields `Plan.cache` and `Plan._add_cache` read from it:
`level`, `trigger_level`, `max_elements`, `_requested_layout`,
`native_cache`), or an incomplete `DelayedCache` (`source.completed` false),
which defers the whole call (line 165). -/
inductive CacheSource where
  | arr (a : Array')
  | cache (level trigger_level max_elements : Option Int)
      (requested_layout : Option Nat) (native_cache : Option Nat)
  | incompleteCache
  deriving DecidableEq, Repr

/-- The `Cache` object built on a successful `Plan.cache` call (line 275). -/
structure CacheRecord where
  target : CacheSource
  index : Option LoopIndex
  trigger_index : Option LoopIndex
  level : Option Int
  trigger_level : Option Int
  layout : Option Nat
  max_elements : Option Int
  thrifty : Option Bool
  location : Option Nat
  deriving DecidableEq, Repr

/-- Return value of `Plan.cache`: the built cache, the completed delayed
placeholder (`_delayed_cache.complete(cache)`, lines 288-290), or the fresh
incomplete placeholder returned when the call is deferred (line 187). -/
inductive CacheReturn where
  | cacheVal (c : CacheRecord)
  | completedPlaceholder (c : CacheRecord)
  | delayedPlaceholder
  deriving DecidableEq, Repr

/-- A command enqueued on the plan: the Python code enqueues
`partial(self._unroll, index)` etc.; following spec section 9 a command is
modelled as kind plus validated concrete payload. -/
inductive Command where
  | unroll (index : LoopIndex)
  | parallelize (indices : List LoopIndex) (policy : String)
  | addCache (c : CacheRecord)
  | packAndEmbedBuffer (target : Array') (wrapper_fn_name packed_buffer_name : String)
      (indexing : Nat)
  | emitRuntimeInitPack (target : Array') (packing_func_name packed_buf_size_func_name : String)
      (indexing : Nat)
  deriving DecidableEq, Repr

/-- `Union[LoopIndex, DelayedParameter]` argument (e.g. `Plan.unroll`);
a `DelayedParameter` is identified by a `Nat` id. -/
inductive IdxArg where
  | val (i : LoopIndex)
  | param (p : Nat)
  deriving DecidableEq, Repr

/-- Optional `Union[LoopIndex, DelayedParameter]` argument (default `None`). -/
inductive OptIdxArg where
  | absent
  | given (i : LoopIndex)
  | param (p : Nat)
  deriving DecidableEq, Repr

/-- Optional `Union[int, DelayedParameter]` argument (default `None`). -/
inductive OptIntArg where
  | absent
  | given (n : Int)
  | param (p : Nat)
  deriving DecidableEq, Repr

/-- The `indices` argument of `Plan.parallelize`:
`Union[LoopIndex, Tuple[LoopIndex], DelayedParameter]`. -/
inductive ParIndicesArg where
  | single (i : LoopIndex)
  | tuple (l : List LoopIndex)
  | param (p : Nat)
  deriving DecidableEq, Repr

/-- The `pin` argument of `Plan.parallelize` (default `None`; only ever
tested for being a `DelayedParameter`, then stored; unused at apply time). -/
inductive PinArg where
  | absent
  | val (v : Nat)
  | param (p : Nat)
  deriving DecidableEq, Repr

/-- The `policy` argument of `Plan.parallelize` (default `"static"`). -/
inductive PolicyArg where
  | val (s : String)
  | param (p : Nat)
  deriving DecidableEq, Repr

/-- One entry of `self._delayed_calls`: the Python dict maps a fresh
`partial(self.method, ...)` key to the stored argument(s); keys are distinct
objects, so the dict is an insertion-ordered list of entries.  `unrollCall`
stores the bare `DelayedParameter` (line 51); `parallelizeCall` and
`cacheCall` store a keyword-argument dict (lines 106-110, 173-186). -/
inductive DelayedEntry where
  | unrollCall (p : Nat)
  | parallelizeCall (indices : ParIndicesArg) (pin : PinArg) (policy : PolicyArg)
  | cacheCall (source : CacheSource) (layout : Option Nat) (max_elements : Option Int)
      (thrifty : Option Bool) (location : Option Nat)
      (index : OptIdxArg) (trigger_index : OptIdxArg)
      (level : OptIntArg) (trigger_level : OptIntArg)
  deriving DecidableEq, Repr

/-- The state of a `Plan` object.  The schedule collaborator (spec section
6, "schedule order provider") is flattened into the two read-only fields
`schedIndices` (`self._sched._indices`) and `schedTransforms` (the recorded
`(transform-kind, split-factor)` annotations used by
`Plan._build_native_context`). -/
structure Plan where
  schedIndices : List LoopIndex
  schedTransforms : List (LoopIndex × IndexTransform × Nat)
  targetCategory : Category
  commands : List Command
  delayedCalls : List DelayedEntry
  indexAttrs : List (Option LoopIndex × List String)
  dynamicDependencies : List LibraryDependency
  deriving DecidableEq, Repr

/-- `Plan.__init__`: empty queues; a GPU target adds the VULKAN dependency. -/
def Plan.init (schedIndices : List LoopIndex)
    (schedTransforms : List (LoopIndex × IndexTransform × Nat))
    (target : Category) : Plan :=
  { schedIndices := schedIndices
    schedTransforms := schedTransforms
    targetCategory := target
    commands := []
    delayedCalls := []
    indexAttrs := []
    dynamicDependencies := if target = Category.GPU then [LibraryDependency.VULKAN] else [] }

/-- Python dict get-with-default over an insertion-ordered association list. -/
def dictGetD {K V : Type} [DecidableEq K] (m : List (K × V)) (k : K) (d : V) : V :=
  match m with
  | [] => d
  | (k', v) :: rest => if k' = k then v else dictGetD rest k d

/-- Python dict assignment: update the key in place if present (keeping its
position), otherwise append the new binding. -/
def dictSet {K V : Type} [DecidableEq K] (m : List (K × V)) (k : K) (v : V) : List (K × V) :=
  match m with
  | [] => [(k, v)]
  | (k', v') :: rest => if k' = k then (k, v) :: rest else (k', v') :: dictSet rest k v

/-- `Plan._add_index_attr` (lines 36-39): append `attr` to the index's
attribute list in `self._index_attrs`.  The key may be `None` (Python allows
`None` dict keys; `Plan.cache` reaches this with `index = None` when a falsy
`level` was given). -/
def Plan._add_index_attr (s : Plan) (index : Option LoopIndex) (attr : String) : Plan :=
  { s with indexAttrs := dictSet s.indexAttrs index (dictGetD s.indexAttrs index [] ++ [attr]) }

/-- Python `set.add` on the dynamic-dependency set, modelled as an
insertion-ordered duplicate-free list. -/
def Plan.addDep (s : Plan) (d : LibraryDependency) : Plan :=
  if d ∈ s.dynamicDependencies then s
  else { s with dynamicDependencies := s.dynamicDependencies ++ [d] }

/-- Python `list.index` returning the position of the first occurrence,
`none` when absent (where Python raises `ValueError`). -/
def listIndex? {α : Type} [DecidableEq α] : List α → α → Option Nat
  | [], _ => none
  | x :: xs, a => if x = a then some 0 else (listIndex? xs a).map (· + 1)

/-- Python sequence indexing `l[i]` with negative-index wraparound;
out-of-range access is `IndexError`. -/
def pyGet {α : Type} (l : List α) (i : Int) : Except PErr α :=
  let j : Int := if i < 0 then (l.length : Int) + i else i
  if j < 0 then .error .indexError
  else
    match l.get? j.toNat with
    | some a => .ok a
    | none => .error .indexError

/-- `Plan.unroll` (lines 44-55): defer on a `DelayedParameter`, else tag the
index "unrolled" and enqueue the unroll command. -/
def Plan.unroll (s : Plan) (index : IdxArg) : Plan :=
  match index with
  | .param p => { s with delayedCalls := s.delayedCalls ++ [DelayedEntry.unrollCall p] }
  | .val i =>
    let s1 := s._add_index_attr (some i) "unrolled"
    { s1 with commands := s1.commands ++ [Command.unroll i] }

/-- Tagging loop of `Plan.parallelize` (lines 121-122). -/
def Plan.addParAttrs (s : Plan) (idxs : List LoopIndex) : Plan :=
  match idxs with
  | [] => s
  | i :: rest => Plan.addParAttrs (s._add_index_attr (some i) "parallelized") rest

/-- `Plan.parallelize` (lines 82-124).  The OpenMP dependency is added for
CPU targets first; then the deferral check; then the arguments are
normalized and validated for contiguity in the schedule order; on success
the indices are tagged and the command is enqueued.  An error result keeps
the mutations made before the raise. -/
def Plan.parallelize (s : Plan) (indices : ParIndicesArg) (pin : PinArg)
    (policy : PolicyArg) : Plan × Option PErr :=
  let s1 := if s.targetCategory = Category.CPU then s.addDep LibraryDependency.OPENMP else s
  if indices matches ParIndicesArg.param _ || pin matches PinArg.param _
      || policy matches PolicyArg.param _ then
    ({ s1 with delayedCalls := s1.delayedCalls ++ [DelayedEntry.parallelizeCall indices pin policy] },
      none)
  else
    let idxs : List LoopIndex :=
      match indices with
      | .single i => [i]
      | .tuple l => l
      | .param _ => []
    match idxs with
    | [] => (s1, some PErr.indexError)
    | i0 :: _ =>
      match listIndex? s1.schedIndices i0 with
      | none => (s1, some PErr.valueErrorNotInList)
      | some start =>
        if start + idxs.length > s1.schedIndices.length
            ∨ idxs ≠ (s1.schedIndices.drop start).take idxs.length then
          (s1, some PErr.nonContiguousIndices)
        else
          let policyStr := match policy with | .val str => str | .param _ => "static"
          let s2 := Plan.addParAttrs s1 idxs
          ({ s2 with commands := s2.commands ++ [Command.parallelize idxs policyStr] }, none)

/-- Python truthiness of an optional int (`if level:`): `None` and `0` are
falsy, any other int truthy. -/
def truthyInt : Option Int → Bool
  | some n => decide (n ≠ 0)
  | none => false

/-- Python truthiness of an optional `LoopIndex` (index handles define no
`__bool__`, so any handle is truthy and `None` is falsy). -/
def truthyIdx : Option LoopIndex → Bool
  | some _ => true
  | none => false

/-- Count of non-`None` sizing arguments,
`sum(i is not None for i in [index, level, max_elements])` (line 192). -/
def countSizing (index : Option LoopIndex) (level : Option Int)
    (max_elements : Option Int) : Nat :=
  (if index.isSome then 1 else 0) + (if level.isSome then 1 else 0)
    + (if max_elements.isSome then 1 else 0)

/-- Line 195: `max_elements is not None and max_elements <= 0`. -/
def budgetNonPositive : Option Int → Bool
  | some m => decide (m ≤ 0)
  | none => false

/-- Line 220: the multicache guard fires on an `Array` source whose role is
neither `CONST` nor `INPUT` (`Cache` and `DelayedCache` sources are not
`isinstance(source, Array)` and are exempt). -/
def multicacheInvalidSource : CacheSource → Bool
  | .arr a => decide (a.role ≠ Role.CONST ∧ a.role ≠ Role.INPUT)
  | _ => false

/-- The `_requested_layout` attribute read at line 224 from the source. -/
def CacheSource.requestedLayout : CacheSource → Option Nat
  | .arr a => a.requested_layout
  | .cache _ _ _ rl _ => rl
  | .incompleteCache => none

/-- Lines 209-217: derive the `(index, level)` pair.  A truthy `level` picks
`index = self._sched._indices[-level]`; otherwise the given `index` is
tagged "cache" and `level = len(order) - order.index(index)` (raising the
not-in-list `ValueError` when the lookup fails, in particular when `index`
is `None` because a falsy `level` was given). -/
def Plan.deriveIndexLevel (s : Plan) (index : Option LoopIndex) (level : Option Int) :
    Plan × Except PErr (LoopIndex × Int) :=
  if truthyInt level then
    match pyGet s.schedIndices (-(level.getD 0)) with
    | .error e => (s, .error e)
    | .ok i => (s, .ok (i, level.getD 0))
  else
    let s1 := s._add_index_attr index "cache"
    match index with
    | some i =>
      match listIndex? s1.schedIndices i with
      | none => (s1, .error .valueErrorNotInList)
      | some pos => (s1, .ok (i, (s1.schedIndices.length : Int) - (pos : Int)))
    | none => (s1, .error .valueErrorNotInList)

/-- Lines 228-241: derive the `(trigger_index, trigger_level)` pair.  Both
given is an error; neither given defaults to the cache's own index/level; a
given `trigger_level` (even `0`, line 234 tests `is not None`) picks
`self._sched._indices[-trigger_level]`; a given `trigger_index` is tagged
"trigger" and its level computed from its position. -/
def Plan.deriveTrigger (s : Plan) (index : LoopIndex) (level : Int)
    (trigger_index : Option LoopIndex) (trigger_level : Option Int) :
    Plan × Except PErr (LoopIndex × Int) :=
  if trigger_index.isSome ∧ trigger_level.isSome then (s, .error .conflictTriggerSpec)
  else if trigger_index.isNone ∧ trigger_level.isNone then (s, .ok (index, level))
  else
    match trigger_level with
    | some tl =>
      match pyGet s.schedIndices (-tl) with
      | .error e => (s, .error e)
      | .ok ti => (s, .ok (ti, tl))
    | none =>
      match trigger_index with
      | some ti =>
        let s1 := s._add_index_attr (some ti) "trigger"
        match listIndex? s1.schedIndices ti with
        | none => (s1, .error .valueErrorNotInList)
        | some pos => (s1, .ok (ti, (s1.schedIndices.length : Int) - (pos : Int)))
      | none => (s, .error .valueErrorNotInList)

/-- Lines 252-273: hierarchical validation when the source is itself a
`Cache`.  The outer cache must carry level plus trigger level or a budget
(line 254); sizing modes must match (line 258); a budget-based pair needs a
strictly larger outer budget (line 261); a level-based pair needs a strictly
higher outer level (line 266) that is at least the inner trigger level
(line 270).  Non-`Cache` sources are not checked.  In every reachable
configuration the `getD` defaults are never used: the compared options are
forced `some` by the earlier checks of `Plan.cache`. -/
def hierarchyCheck (source : CacheSource) (level trigger_level max_elements : Option Int) :
    Option PErr :=
  match source with
  | .cache sLevel sTrigger sMax _ _ =>
    if sMax.isNone ∧ (sLevel.isNone ∨ sTrigger.isNone) then some .sourceCacheUnderspecified
    else if sMax.isNone ≠ max_elements.isNone then some .hierarchyModeMismatch
    else
      match sMax with
      | some b =>
        if b ≤ max_elements.getD 0 then some .invalidHierarchyBudget else none
      | none =>
        if sLevel.getD 0 ≤ level.getD 0 then some .invalidHierarchyLevelOrder
        else if sLevel.getD 0 < trigger_level.getD 0 then some .invalidHierarchyLevelTrigger
        else none
  | _ => none

/-- Lines 252-293: run the hierarchical validation, build the `Cache`
record, complete the delayed placeholder when one was threaded through, and
enqueue the `partial(self._add_cache, cache)` command. -/
def Plan.finishCache (s : Plan) (source : CacheSource)
    (index trigger_index : Option LoopIndex) (layout : Option Nat)
    (max_elements : Option Int) (thrifty : Option Bool) (location : Option Nat)
    (level trigger_level : Option Int) (_delayed_cache : Bool) :
    Plan × Except PErr CacheReturn :=
  match hierarchyCheck source level trigger_level max_elements with
  | some e => (s, .error e)
  | none =>
    let c : CacheRecord :=
      { target := source, index := index, trigger_index := trigger_index,
        level := level, trigger_level := trigger_level, layout := layout,
        max_elements := max_elements, thrifty := thrifty, location := location }
    ({ s with commands := s.commands ++ [Command.addCache c] },
      .ok (if _delayed_cache then CacheReturn.completedPlaceholder c else CacheReturn.cacheVal c))

/-- Lines 198-250: the level-bounded path of `Plan.cache` (taken when
`max_elements is None`): mutual-exclusion checks on index/level keys, the
index/level derivation, the multicache guard (which inspects the raw
user-supplied trigger arguments), the layout default, the trigger
derivation, and the bound checks, in source order. -/
def Plan.cacheLevelPath (s : Plan) (source : CacheSource)
    (index : Option LoopIndex) (trigger_index : Option LoopIndex)
    (layout : Option Nat) (thrifty : Option Bool) (location : Option Nat)
    (level : Option Int) (trigger_level : Option Int) (_delayed_cache : Bool) :
    Plan × Except PErr CacheReturn :=
  if index.isSome ∧ (level.isSome ∨ trigger_level.isSome) then (s, .error .conflictIndexLevel)
  else if level.isSome ∧ (index.isSome ∨ trigger_index.isSome) then (s, .error .conflictLevelIndex)
  else
    match s.deriveIndexLevel index level with
    | (s1, .error e) => (s1, .error e)
    | (s1, .ok (idx, lvl)) =>
      if (truthyInt trigger_level || truthyIdx trigger_index)
          && multicacheInvalidSource source then
        (s1, .error .invalidMulticacheSource)
      else
        let layout1 := match layout with
          | some x => some x
          | none => source.requestedLayout
        match s1.deriveTrigger idx lvl trigger_index trigger_level with
        | (s2, .error e) => (s2, .error e)
        | (s2, .ok (tidx, tlvl)) =>
          if lvl > tlvl then (s2, .error .triggerBeforeLevel)
          else if lvl ≤ 0 then (s2, .error .invalidCacheLevel)
          else if tlvl ≤ 0 then (s2, .error .invalidCacheTriggerLevel)
          else
            s2.finishCache source (some idx) (some tidx) layout1 none thrifty location
              (some lvl) (some tlvl) _delayed_cache

/-- Lines 189-293 of `Plan.cache` after the deferral check, with all
arguments concrete. -/
def Plan.cacheResolved (s : Plan) (source : CacheSource)
    (index : Option LoopIndex) (trigger_index : Option LoopIndex)
    (layout : Option Nat) (max_elements : Option Int) (thrifty : Option Bool)
    (location : Option Nat) (level : Option Int) (trigger_level : Option Int)
    (_delayed_cache : Bool) : Plan × Except PErr CacheReturn :=
  if thrifty.getD false then (s, .error .notImplementedThrifty)
  else if countSizing index level max_elements ≠ 1 then (s, .error .ambiguousCacheSize)
  else if budgetNonPositive max_elements then (s, .error .budgetNotPositive)
  else
    match max_elements with
    | some _ =>
      s.finishCache source index trigger_index layout max_elements thrifty location
        level trigger_level _delayed_cache
    | none =>
      s.cacheLevelPath source index trigger_index layout thrifty location
        level trigger_level _delayed_cache

/-- Marker for `Plan.cache` arguments that are unresolved `DelayedParameter`s. -/
def OptIdxArg.isParam : OptIdxArg → Bool
  | .param _ => true
  | _ => false

/-- Marker for `Plan.cache` arguments that are unresolved `DelayedParameter`s. -/
def OptIntArg.isParam : OptIntArg → Bool
  | .param _ => true
  | _ => false

/-- Forget the (already excluded) parameter variant of an optional index. -/
def OptIdxArg.toOption : OptIdxArg → Option LoopIndex
  | .given i => some i
  | _ => none

/-- Forget the (already excluded) parameter variant of an optional int. -/
def OptIntArg.toOption : OptIntArg → Option Int
  | .given n => some n
  | _ => none

/-- `Plan.cache` (lines 139-293).  If any of the four level arguments is an
unresolved `DelayedParameter`, or the source is an incomplete
`DelayedCache`, the call is stored in `self._delayed_calls` (the `partial`
binds source/layout/max_elements/thrifty/location and a fresh placeholder)
and the incomplete placeholder is returned; otherwise validation and
derivation run with concrete values. -/
def Plan.cache (s : Plan) (source : CacheSource)
    (index : OptIdxArg) (trigger_index : OptIdxArg) (layout : Option Nat)
    (max_elements : Option Int) (thrifty : Option Bool) (location : Option Nat)
    (level : OptIntArg) (trigger_level : OptIntArg) (_delayed_cache : Bool) :
    Plan × Except PErr CacheReturn :=
  if index.isParam || trigger_index.isParam || level.isParam || trigger_level.isParam
      || (source matches CacheSource.incompleteCache) then
    ({ s with delayedCalls := s.delayedCalls
        ++ [DelayedEntry.cacheCall source layout max_elements thrifty location
              index trigger_index level trigger_level] },
      .ok .delayedPlaceholder)
  else
    s.cacheResolved source index.toOption trigger_index.toOption layout max_elements
      thrifty location level.toOption trigger_level.toOption _delayed_cache

/-- Resolution environment for delayed parameters. Modelled from the spec:
the deferred parameter provider (`DelayedParameter`, `Parameter.py`, not
under `src/`) exposes `get_value()` returning the resolved concrete value
(spec section 6); one typed field per value shape the stored calls use. -/
structure ParamEnv where
  idxVal : Nat → LoopIndex
  idxListVal : Nat → List LoopIndex
  intVal : Nat → Int
  strVal : Nat → String
  pinVal : Nat → Nat

/-- Modelled from the spec: the deferred parameter provider exposes only
`get_value()` (spec section 6), so the `DelayedParameter` object stored for
a non-dict entry is not iterable, and the list comprehension
`for param in params` in the non-dict branch of
`Plan._replay_delayed_calls` (lines 516-518) raises `TypeError`. -/
def delayedParameterIterError : PErr := .typeError

/-- Keyword-argument resolution of the dict replay branch (lines 510-513):
a stored `DelayedParameter` value is replaced by `get_value()`, any other
stored value is passed through unchanged. -/
def resolveParIndices (env : ParamEnv) : ParIndicesArg → ParIndicesArg
  | .param p => .tuple (env.idxListVal p)
  | a => a

/-- Keyword-argument resolution of a stored `pin` value. -/
def resolvePin (env : ParamEnv) : PinArg → PinArg
  | .param p => .val (env.pinVal p)
  | a => a

/-- Keyword-argument resolution of a stored `policy` value. -/
def resolvePolicy (env : ParamEnv) : PolicyArg → PolicyArg
  | .param p => .val (env.strVal p)
  | a => a

/-- Keyword-argument resolution of a stored optional index value. -/
def resolveOptIdx (env : ParamEnv) : OptIdxArg → OptIdxArg
  | .param p => .given (env.idxVal p)
  | a => a

/-- Keyword-argument resolution of a stored optional int value. -/
def resolveOptInt (env : ParamEnv) : OptIntArg → OptIntArg
  | .param p => .given (env.intVal p)
  | a => a

/-- The loop body of `Plan._replay_delayed_calls` (lines 506-519) over a
snapshot of the entry list, stopping at the first raise (spec section 5:
best-effort prefix — earlier entries keep their side effects).  A dict
entry has its `DelayedParameter` values resolved and the stored call
re-invoked with keyword arguments; a non-dict entry (a bare
`DelayedParameter` stored by `Plan.unroll`) is iterated by the list
comprehension, which raises `TypeError` (`delayedParameterIterError`)
before the call can be re-invoked. -/
def Plan.replayDelayedList (env : ParamEnv) : Plan → List DelayedEntry → Plan × Option PErr
  | s, [] => (s, none)
  | s, .unrollCall _ :: _ => (s, some delayedParameterIterError)
  | s, .parallelizeCall ind pin pol :: rest =>
    match s.parallelize (resolveParIndices env ind) (resolvePin env pin)
        (resolvePolicy env pol) with
    | (s1, none) => Plan.replayDelayedList env s1 rest
    | (s1, some e) => (s1, some e)
  | s, .cacheCall src layout maxE thr loc idx tidx lvl tlvl :: rest =>
    match s.cache src (resolveOptIdx env idx) (resolveOptIdx env tidx) layout maxE thr loc
        (resolveOptInt env lvl) (resolveOptInt env tlvl) true with
    | (s1, .ok _) => Plan.replayDelayedList env s1 rest
    | (s1, .error e) => (s1, some e)

/-- `Plan._replay_delayed_calls` (lines 506-519): replay every stored entry
in registration order, substituting resolved parameter values. -/
def Plan._replay_delayed_calls (s : Plan) (env : ParamEnv) : Plan × Option PErr :=
  Plan.replayDelayedList env s s.delayedCalls

/-- `Plan.pack_and_embed_buffer` (lines 325-344): only constant-role
buffers may be packed and embedded; on success the command is enqueued. -/
def Plan.pack_and_embed_buffer (s : Plan) (target : Array')
    (wrapper_fn_name packed_buffer_name : String) (indexing : Nat) :
    Plan × Option PErr :=
  if target.role ≠ Role.CONST then (s, some .invalidRole)
  else
    ({ s with commands := s.commands
        ++ [Command.packAndEmbedBuffer target wrapper_fn_name packed_buffer_name indexing] },
      none)

/-- `Plan.emit_runtime_init_pack` (lines 346-366): enqueues the
runtime-init packing command; the code performs no validation of the
target's role before enqueueing. -/
def Plan.emit_runtime_init_pack (s : Plan) (target : Array')
    (packing_func_name packed_buf_size_func_name : String) (indexing : Nat) :
    Plan × Option PErr :=
  ({ s with commands := s.commands
      ++ [Command.emitRuntimeInitPack target packing_func_name packed_buf_size_func_name indexing] },
    none)

/-- The split-factor map of `Plan._build_native_context` (lines 477-481):
`{i: t[1] for i in sched.get_indices() if t := get_index_transform(i)
and t[0] is SPLIT}` — an index maps to its split factor exactly when it is
one of the schedule's indices and its recorded transform is a `SPLIT`. -/
def Plan.splitFactorMap (s : Plan) (i : LoopIndex) : Option Nat :=
  if i ∈ s.schedIndices then
    match dictGetD (s.schedTransforms.map (fun t => (t.1, some t.2))) i none with
    | some (IndexTransform.SPLIT, f) => some f
    | _ => none
  else none

/-- The per-axis block dimension (lines 470, 488-489): the recorded split
factor when one exists, otherwise the fixed default `BASE_BLOCK_DIM = 16`. -/
def blockDim (sf : LoopIndex → Option Nat) (index : LoopIndex) : Nat :=
  match sf index with
  | some f => f
  | none => 16

/-- One iteration of the grid-inference loop (lines 486-495): compute the
block dimension, then `grid, remainder = divmod(shape, block)`; a zero
block dimension is Python's `ZeroDivisionError`, a non-zero remainder is
the `RuntimeError` (`indivisibleShape`).  Returns `(grid, block)`. -/
def dimFor (sf : LoopIndex → Option Nat) (x : Nat × LoopIndex) : Except PErr (Nat × Nat) :=
  let block := blockDim sf x.2
  if block = 0 then .error .zeroDivisionError
  else if x.1 % block ≠ 0 then .error .indivisibleShape
  else .ok (x.1 / block, block)

/-- A `_Dim3` triple handed to the native `_GPU` options. -/
structure Dim3 where
  x : Nat
  y : Nat
  z : Nat
  deriving DecidableEq, Repr

/-- The concrete plan created by `Plan._build_native_context`. -/
inductive NativePlanKind where
  | gpu (grid block : Dim3)
  | cpu
  deriving DecidableEq, Repr

/-- `Plan._build_native_context` (lines 461-500).  For a GPU target the loop
runs over the first `min(2, len(nest._shape))` shape/index pairs, starting
from defaults `block_dims = [16, 16]`, `grid_dims = [1, 1]`, and the grid
and block triples get a third axis fixed at `1`; any other target creates a
plain plan with no shape inference.  The two loop iterations are unrolled
over the list structure. -/
def Plan._build_native_context (s : Plan) (nestShape : List (Nat × LoopIndex)) :
    Except PErr NativePlanKind :=
  if s.targetCategory = Category.GPU then
    match nestShape with
    | [] => .ok (.gpu ⟨1, 1, 1⟩ ⟨16, 16, 1⟩)
    | [x] =>
      match dimFor s.splitFactorMap x with
      | .error e => .error e
      | .ok (g0, b0) => .ok (.gpu ⟨g0, 1, 1⟩ ⟨b0, 16, 1⟩)
    | x :: y :: _ =>
      match dimFor s.splitFactorMap x with
      | .error e => .error e
      | .ok (g0, b0) =>
        match dimFor s.splitFactorMap y with
        | .error e => .error e
        | .ok (g1, b1) => .ok (.gpu ⟨g0, g1, 1⟩ ⟨b0, b1, 1⟩)
  else .ok .cpu

/-- The native cache-creation invocation made by `Plan._add_cache`
(lines 308-323): the resolved argument values handed to
`context.plan.add_cache` (the GPU and CPU overloads receive the same
target/index/trigger/max_elements payload; `gpuPath` records which native
overload is called). -/
structure NativeAddCacheCall where
  target : Option Nat
  index : Option Nat
  trigger_index : Option Nat
  max_elements : Option Int
  gpuPath : Bool
  deriving DecidableEq, Repr

/-- `Plan._add_cache` (lines 295-323): resolve
`last_in_index = context.mapping[id(cache.index)] if cache.index else None`,
`trigger_index = context.mapping[id(cache.trigger_index)] if
cache.trigger_index else last_in_index`, resolve the target handle (the
mapping for an `Array`, `target.native_cache` for a cache), and invoke the
native cache creation.  `mappingIdx`/`mappingArr` model
`context.mapping`; a missing key is Python's `KeyError`. -/
def Plan._add_cache (s : Plan) (c : CacheRecord)
    (mappingIdx : LoopIndex → Option Nat) (mappingArr : Nat → Option Nat) :
    Except PErr NativeAddCacheCall :=
  match (match c.index with
         | some i => match mappingIdx i with
           | some h => Except.ok (some h)
           | none => Except.error PErr.keyError
         | none => Except.ok none : Except PErr (Option Nat)) with
  | .error e => .error e
  | .ok last_in_index =>
    match (match c.trigger_index with
           | some i => match mappingIdx i with
             | some h => Except.ok (some h)
             | none => Except.error PErr.keyError
           | none => Except.ok last_in_index : Except PErr (Option Nat)) with
    | .error e => .error e
    | .ok trigger_index =>
      match (match c.target with
             | .arr a => match mappingArr a.id with
               | some h => Except.ok (some h)
               | none => Except.error PErr.keyError
             | .cache _ _ _ _ nc => Except.ok nc
             | .incompleteCache => Except.ok none : Except PErr (Option Nat)) with
      | .error e => .error e
      | .ok target =>
        .ok { target := target, index := last_in_index, trigger_index := trigger_index,
              max_elements := c.max_elements,
              gpuPath := s.targetCategory = Category.GPU }

theorem addDep_schedIndices (s : Plan) (d : LibraryDependency) :
    (s.addDep d).schedIndices = s.schedIndices := by
  unfold Plan.addDep; split <;> rfl

theorem addDep_commands (s : Plan) (d : LibraryDependency) :
    (s.addDep d).commands = s.commands := by
  unfold Plan.addDep; split <;> rfl

theorem addDep_targetCategory (s : Plan) (d : LibraryDependency) :
    (s.addDep d).targetCategory = s.targetCategory := by
  unfold Plan.addDep; split <;> rfl

theorem mem_addDep_self (s : Plan) (d : LibraryDependency) :
    d ∈ (s.addDep d).dynamicDependencies := by
  unfold Plan.addDep; split
  · assumption
  · simp

theorem addAttr_schedIndices (s : Plan) (k : Option LoopIndex) (a : String) :
    (s._add_index_attr k a).schedIndices = s.schedIndices := rfl

theorem addAttr_dynamicDependencies (s : Plan) (k : Option LoopIndex) (a : String) :
    (s._add_index_attr k a).dynamicDependencies = s.dynamicDependencies := rfl

theorem addParAttrs_commands (l : List LoopIndex) (s : Plan) :
    (Plan.addParAttrs s l).commands = s.commands := by
  induction l generalizing s with
  | nil => rfl
  | cons i rest ih => simpa [Plan.addParAttrs] using ih (s._add_index_attr (some i) "parallelized")

theorem addParAttrs_dynamicDependencies (l : List LoopIndex) (s : Plan) :
    (Plan.addParAttrs s l).dynamicDependencies = s.dynamicDependencies := by
  induction l generalizing s with
  | nil => rfl
  | cons i rest ih => simpa [Plan.addParAttrs] using ih (s._add_index_attr (some i) "parallelized")

theorem pyGet_neg_ok {α : Type} (l : List α) (k : Int) (h1 : 1 ≤ k) (h2 : k.toNat ≤ l.length) :
    pyGet l (-k) = .ok (l.get ⟨l.length - k.toNat, by omega⟩) := by
  unfold pyGet
  have hneg : -k < 0 := by omega
  have hge : ¬ ((l.length : Int) + -k < 0) := by omega
  have ht : ((l.length : Int) + -k).toNat = l.length - k.toNat := by omega
  have hlt : l.length - k.toNat < l.length := by omega
  simp only [hneg, if_true, hge, if_false, ht, List.get?_eq_get hlt]

theorem listIndex?_get {α : Type} [DecidableEq α] (l : List α) (hnd : l.Nodup) (n : Nat)
    (h : n < l.length) : listIndex? l (l.get ⟨n, h⟩) = some n := by
  induction l generalizing n with
  | nil => simp at h
  | cons x xs ih =>
    rcases n with _ | m
    · simp [listIndex?]
    · have hm : m < xs.length := by simpa using h
      have hx : x ≠ xs[m] := by
        intro he
        exact (List.nodup_cons.mp hnd).1 (he ▸ List.get_mem xs m hm)
      have ihm := ih (List.nodup_cons.mp hnd).2 m hm
      simp only [List.get_eq_getElem] at ihm ⊢
      simp [listIndex?, hx, ihm]

/-- C1: the claim states that registering `unroll(P)` with `P` an unresolved
deferred parameter and then resolving `P` to an index via the delayed-call
replay pass enqueues the same command, with the same side effects, as
calling `unroll` on the index directly.  On the code as written this fails:
`Plan.unroll` stores the bare `DelayedParameter` (line 51), and the non-dict
branch of `Plan._replay_delayed_calls` (lines 516-519) iterates over the
stored value (`for param in params`); the deferred-parameter provider exposes
only `get_value()` (spec section 6), so the iteration raises `TypeError`
before `unroll` can be re-invoked — no command is enqueued and no index is
tagged, while the direct call enqueues `Command.unroll 20` and tags index
`20` "unrolled".  This theorem evaluates both runs at that concrete input. -/
theorem unroll_deferred_replay_type_error :
    Plan._replay_delayed_calls
        (Plan.unroll (Plan.init [10, 20] [] Category.CPU) (.param 0))
        ⟨fun _ => 20, fun _ => [], fun _ => 0, fun _ => "", fun _ => 0⟩
      = (Plan.unroll (Plan.init [10, 20] [] Category.CPU) (.param 0), some PErr.typeError)
    ∧ (Plan.unroll (Plan.init [10, 20] [] Category.CPU) (.param 0)).commands = []
    ∧ (Plan.unroll (Plan.init [10, 20] [] Category.CPU) (.param 0)).indexAttrs = []
    ∧ (Plan.unroll (Plan.init [10, 20] [] Category.CPU) (.val 20)).commands
        = [Command.unroll 20]
    ∧ (Plan.unroll (Plan.init [10, 20] [] Category.CPU) (.val 20)).indexAttrs
        = [(some 20, ["unrolled"])] :=
  ⟨rfl, rfl, rfl, rfl, rfl⟩

/-- C10: on a CPU-target plan, `parallelize` adds the OpenMP runtime-library
dependency to the dynamic-dependency set before the deferral check and
before any argument validation, so the set is mutated for every call —
including calls that are deferred on an unresolved parameter and calls that
fail with the non-contiguity error. -/
theorem parallelize_adds_openmp_before_validation (s : Plan) (indices : ParIndicesArg)
    (pin : PinArg) (policy : PolicyArg) (hcpu : s.targetCategory = Category.CPU) :
    LibraryDependency.OPENMP ∈ (s.parallelize indices pin policy).1.dynamicDependencies := by
  have hmem := mem_addDep_self s LibraryDependency.OPENMP
  unfold Plan.parallelize
  simp only [hcpu, eq_self_iff_true, if_true]
  repeat' split
  all_goals simpa [addParAttrs_dynamicDependencies] using hmem

/-- Witness for C10 at concrete inputs: a non-contiguous call and a deferred
call on a CPU plan both leave OpenMP in the dependency set. -/
theorem parallelize_adds_openmp_before_validation_witness :
    (Plan.init [0, 1, 2] [] Category.CPU).targetCategory = Category.CPU
    ∧ LibraryDependency.OPENMP ∈
        ((Plan.init [0, 1, 2] [] Category.CPU).parallelize (.tuple [0, 2]) .absent
          (.val "static")).1.dynamicDependencies
    ∧ LibraryDependency.OPENMP ∈
        ((Plan.init [0, 1, 2] [] Category.CPU).parallelize (.param 3) .absent
          (.val "static")).1.dynamicDependencies :=
  ⟨rfl, parallelize_adds_openmp_before_validation _ _ _ _ rfl,
    parallelize_adds_openmp_before_validation _ _ _ _ rfl⟩

/-- C5: for a GPU target, `_build_native_context` takes up to the first two
shape/index pairs; each axis's block dimension is `blockDim` (the recorded
split factor, else the default 16), the grid dimension is the exact quotient
`shape / block` with a non-zero remainder failing as `indivisibleShape`, and
the third axis of both grid and block triples is fixed at 1. -/
theorem build_native_context_gpu_dims (s : Plan) (sh0 sh1 : Nat) (i0 i1 : LoopIndex)
    (rest : List (Nat × LoopIndex)) (b0 b1 : Nat)
    (hgpu : s.targetCategory = Category.GPU)
    (hb0 : blockDim s.splitFactorMap i0 = b0) (hb1 : blockDim s.splitFactorMap i1 = b1)
    (hb0nz : b0 ≠ 0) (hb1nz : b1 ≠ 0) :
    (sh0 % b0 = 0 → s._build_native_context [(sh0, i0)]
        = .ok (.gpu ⟨sh0 / b0, 1, 1⟩ ⟨b0, 16, 1⟩))
    ∧ (sh0 % b0 ≠ 0 → s._build_native_context [(sh0, i0)] = .error .indivisibleShape)
    ∧ (sh0 % b0 = 0 → sh1 % b1 = 0 → s._build_native_context ((sh0, i0) :: (sh1, i1) :: rest)
        = .ok (.gpu ⟨sh0 / b0, sh1 / b1, 1⟩ ⟨b0, b1, 1⟩))
    ∧ (sh0 % b0 ≠ 0 → s._build_native_context ((sh0, i0) :: (sh1, i1) :: rest)
        = .error .indivisibleShape)
    ∧ (sh0 % b0 = 0 → sh1 % b1 ≠ 0 → s._build_native_context ((sh0, i0) :: (sh1, i1) :: rest)
        = .error .indivisibleShape) := by
  have hd0ok : sh0 % b0 = 0 → dimFor s.splitFactorMap (sh0, i0) = .ok (sh0 / b0, b0) := by
    intro h; simp [dimFor, hb0, hb0nz, h]
  have hd0err : sh0 % b0 ≠ 0 → dimFor s.splitFactorMap (sh0, i0) = .error .indivisibleShape := by
    intro h; simp [dimFor, hb0, hb0nz, h]
  have hd1ok : sh1 % b1 = 0 → dimFor s.splitFactorMap (sh1, i1) = .ok (sh1 / b1, b1) := by
    intro h; simp [dimFor, hb1, hb1nz, h]
  have hd1err : sh1 % b1 ≠ 0 → dimFor s.splitFactorMap (sh1, i1) = .error .indivisibleShape := by
    intro h; simp [dimFor, hb1, hb1nz, h]
  refine ⟨fun h0 => ?_, fun h0 => ?_, fun h0 h1 => ?_, fun h0 => ?_, fun h0 h1 => ?_⟩
  · simp [Plan._build_native_context, hgpu, hd0ok h0]
  · simp [Plan._build_native_context, hgpu, hd0err h0]
  · simp [Plan._build_native_context, hgpu, hd0ok h0, hd1ok h1]
  · simp [Plan._build_native_context, hgpu, hd0err h0]
  · simp [Plan._build_native_context, hgpu, hd0ok h0, hd1err h1]

/-- Witness for C5 at the claim's concrete inputs: shape 32 with a recorded
split factor 16 yields block 16 and grid 2; shape 30 with split factor 16
fails with the indivisible-shape error. -/
theorem build_native_context_gpu_dims_witness :
    (Plan.init [0, 1] [(0, IndexTransform.SPLIT, 16)] Category.GPU)._build_native_context
        [(32, 0)] = .ok (.gpu ⟨2, 1, 1⟩ ⟨16, 16, 1⟩)
    ∧ (Plan.init [0, 1] [(0, IndexTransform.SPLIT, 16)] Category.GPU)._build_native_context
        [(30, 0)] = .error .indivisibleShape := by
  constructor
  · have h := (build_native_context_gpu_dims
      (Plan.init [0, 1] [(0, IndexTransform.SPLIT, 16)] Category.GPU) 32 0 0 1 [] 16 16
      rfl (by decide) (by decide) (by decide) (by decide)).1
    simpa using h (by decide)
  · have h := (build_native_context_gpu_dims
      (Plan.init [0, 1] [(0, IndexTransform.SPLIT, 16)] Category.GPU) 30 0 0 1 [] 16 16
      rfl (by decide) (by decide) (by decide) (by decide)).2.1
    simpa using h (by decide)

/-- C8 amended: only `pack_and_embed_buffer` validates the buffer role —
a non-CONST target fails with the invalid-role error and enqueues nothing,
a CONST target enqueues the packing command; `emit_runtime_init_pack`
performs no role check at all and enqueues its command for every role. -/
theorem pack_role_validation (s : Plan) (t : Array') (w p ps pf : String) (ix : Nat) :
    (t.role ≠ Role.CONST →
      s.pack_and_embed_buffer t w p ix = (s, some PErr.invalidRole))
    ∧ (t.role = Role.CONST →
      s.pack_and_embed_buffer t w p ix
        = ({ s with commands := s.commands ++ [Command.packAndEmbedBuffer t w p ix] }, none))
    ∧ s.emit_runtime_init_pack t ps pf ix
        = ({ s with commands := s.commands ++ [Command.emitRuntimeInitPack t ps pf ix] }, none) := by
  refine ⟨fun h => ?_, fun h => ?_, rfl⟩
  · simp [Plan.pack_and_embed_buffer, h]
  · simp [Plan.pack_and_embed_buffer, h]

/-- Witness for the amended C8: an INPUT-role buffer makes
`pack_and_embed_buffer` fail with the invalid-role error. -/
theorem pack_role_validation_witness :
    (⟨1, Role.INPUT, none⟩ : Array').role ≠ Role.CONST
    ∧ Plan.pack_and_embed_buffer (Plan.init [0] [] Category.CPU) ⟨1, Role.INPUT, none⟩ "w" "p" 0
        = (Plan.init [0] [] Category.CPU, some PErr.invalidRole) :=
  ⟨by decide, (pack_role_validation (Plan.init [0] [] Category.CPU)
      ⟨1, Role.INPUT, none⟩ "w" "p" "a" "b" 0).1 (by decide)⟩

/-- C8 counterexample: the claim says `emit_runtime_init_pack` on a buffer
whose role is not CONST fails with the invalid-role error and enqueues no
command; on the code it succeeds and enqueues the runtime-init packing
command for an INPUT-role buffer (the function has no role check). -/
theorem emit_runtime_init_pack_skips_role_check :
    Plan.emit_runtime_init_pack (Plan.init [0] [] Category.CPU) ⟨0, Role.INPUT, none⟩
        "pack" "size" 0
      = ({ Plan.init [0] [] Category.CPU with
            commands := [Command.emitRuntimeInitPack ⟨0, Role.INPUT, none⟩ "pack" "size" 0] },
          none)
    ∧ (⟨0, Role.INPUT, none⟩ : Array').role ≠ Role.CONST :=
  ⟨rfl, by decide⟩

/-- C9 counterexample: the claim says a cache command whose index is unset
resolves the index by falling back to the last index in the schedule order
before invoking the native cache creation.  In `Plan._add_cache` the code
computes `last_in_index = context.mapping[id(cache.index)] if cache.index
else None`: with the index unset it passes `None`, not the mapping of the
last schedule index (here index `2`, mapped to `102`). -/
theorem add_cache_no_last_index_fallback :
    Plan._add_cache (Plan.init [0, 1, 2] [] Category.CPU)
        { target := CacheSource.arr ⟨0, Role.CONST, some 7⟩, index := none,
          trigger_index := none, level := none, trigger_level := none, layout := none,
          max_elements := some 5, thrifty := none, location := none }
        (fun i => some (i + 100)) (fun _ => some 5)
      = .ok { target := some 5, index := none, trigger_index := none,
              max_elements := some 5, gpuPath := false }
    ∧ (fun i : LoopIndex => some (i + 100)) 2 = some 102 :=
  ⟨rfl, rfl⟩

theorem depIf_schedIndices (s : Plan) (d : LibraryDependency) (c : Prop) [Decidable c] :
    (if c then s.addDep d else s).schedIndices = s.schedIndices := by
  split <;> simp [addDep_schedIndices]

theorem depIf_commands (s : Plan) (d : LibraryDependency) (c : Prop) [Decidable c] :
    (if c then s.addDep d else s).commands = s.commands := by
  split <;> simp [addDep_commands]

/-- C3: a concrete `parallelize(indices)` call succeeds exactly when the
given indices equal the contiguous slice of the schedule order starting at
the position of the first given index, enqueueing the parallelize command;
any other sequence (whose first index occurs in the order) fails with the
non-contiguity error and enqueues no command. -/
theorem parallelize_contiguous_run (s : Plan) (i0 : LoopIndex) (rest : List LoopIndex)
    (pol : String) (start : Nat)
    (hstart : listIndex? s.schedIndices i0 = some start) :
    ((i0 :: rest) = (s.schedIndices.drop start).take (i0 :: rest).length →
      (s.parallelize (.tuple (i0 :: rest)) .absent (.val pol)).2 = none
      ∧ (s.parallelize (.tuple (i0 :: rest)) .absent (.val pol)).1.commands
          = s.commands ++ [Command.parallelize (i0 :: rest) pol])
    ∧ ((i0 :: rest) ≠ (s.schedIndices.drop start).take (i0 :: rest).length →
      (s.parallelize (.tuple (i0 :: rest)) .absent (.val pol)).2
          = some PErr.nonContiguousIndices
      ∧ (s.parallelize (.tuple (i0 :: rest)) .absent (.val pol)).1.commands = s.commands) := by
  constructor
  · intro heq
    have hlen : start + (i0 :: rest).length ≤ s.schedIndices.length := by
      have hl := congrArg List.length heq
      rw [List.length_take, List.length_drop] at hl
      have hmr := Nat.min_le_right ((i0 :: rest).length) (s.schedIndices.length - start)
      rw [← hl] at hmr
      have hpos : (i0 :: rest).length ≠ 0 := by simp
      omega
    have hcond : ¬ (s.schedIndices.length < start + (i0 :: rest).length
        ∨ ¬ (i0 :: rest) = (s.schedIndices.drop start).take (i0 :: rest).length) := by
      push_neg
      exact ⟨by omega, heq⟩
    simp only [List.length_cons] at hcond
    constructor <;>
      simp [Plan.parallelize, depIf_schedIndices, depIf_commands, hstart, hcond,
        addParAttrs_commands, addDep_commands]
  · intro hne
    have hcond : s.schedIndices.length < start + (i0 :: rest).length
        ∨ ¬ (i0 :: rest) = (s.schedIndices.drop start).take (i0 :: rest).length :=
      Or.inr hne
    simp only [List.length_cons] at hcond
    constructor <;>
      simp [Plan.parallelize, depIf_schedIndices, depIf_commands, hstart, hcond,
        addDep_commands]

/-- Witness for C3 at the claim's concrete inputs over the order
`[a, b, c, d, e]`: `parallelize([order[2], order[3]])` succeeds and enqueues
the command; `parallelize([order[1], order[3]])` fails with the
non-contiguity error and enqueues nothing. -/
theorem parallelize_contiguous_run_witness :
    ((Plan.init [0, 1, 2, 3, 4] [] Category.CPU).parallelize (.tuple [2, 3]) .absent
        (.val "static")).2 = none
    ∧ ((Plan.init [0, 1, 2, 3, 4] [] Category.CPU).parallelize (.tuple [2, 3]) .absent
        (.val "static")).1.commands = [Command.parallelize [2, 3] "static"]
    ∧ ((Plan.init [0, 1, 2, 3, 4] [] Category.CPU).parallelize (.tuple [1, 3]) .absent
        (.val "static")).2 = some PErr.nonContiguousIndices
    ∧ ((Plan.init [0, 1, 2, 3, 4] [] Category.CPU).parallelize (.tuple [1, 3]) .absent
        (.val "static")).1.commands = [] := by
  refine ⟨?_, ?_, ?_, ?_⟩
  · exact ((parallelize_contiguous_run (Plan.init [0, 1, 2, 3, 4] [] Category.CPU) 2 [3]
      "static" 2 (by decide)).1 (by decide)).1
  · have h := ((parallelize_contiguous_run (Plan.init [0, 1, 2, 3, 4] [] Category.CPU) 2 [3]
      "static" 2 (by decide)).1 (by decide)).2
    simpa using h
  · exact ((parallelize_contiguous_run (Plan.init [0, 1, 2, 3, 4] [] Category.CPU) 1 [3]
      "static" 1 (by decide)).2 (by decide)).1
  · have h := ((parallelize_contiguous_run (Plan.init [0, 1, 2, 3, 4] [] Category.CPU) 1 [3]
      "static" 1 (by decide)).2 (by decide)).2
    simpa using h

/-- C9 amended: a successfully validated `cache` call on the
`max_elements` path builds a record whose `index` and `trigger_index` are
unset, and at apply time `_add_cache` passes `None` (not the last index of
the schedule order) as the native index and trigger-index arguments of the
native cache-creation call. -/
theorem cache_max_elements_unset_index (s : Plan) (a : Array') (m : Int) (hm : 0 < m)
    (layout loc : Option Nat) (mi : LoopIndex → Option Nat) (ma : Nat → Option Nat)
    (tgt : Nat) (hma : ma a.id = some tgt) :
    ∃ c : CacheRecord,
      s.cache (.arr a) .absent .absent layout (some m) none loc .absent .absent false
        = ({ s with commands := s.commands ++ [Command.addCache c] }, .ok (.cacheVal c))
      ∧ c.index = none ∧ c.trigger_index = none ∧ c.max_elements = some m
      ∧ s._add_cache c mi ma
          = .ok { target := some tgt, index := none, trigger_index := none,
                  max_elements := some m,
                  gpuPath := decide (s.targetCategory = Category.GPU) } := by
  have hb : budgetNonPositive (some m) = false := by
    simp only [budgetNonPositive, decide_eq_false_iff_not]
    omega
  refine ⟨CacheRecord.mk (.arr a) none none none none layout (some m) none loc,
    ?_, rfl, rfl, rfl, ?_⟩
  · simp [Plan.cache, OptIdxArg.isParam, OptIntArg.isParam, OptIdxArg.toOption,
      OptIntArg.toOption, Plan.cacheResolved, countSizing, hb, Plan.finishCache,
      hierarchyCheck]
  · simp [Plan._add_cache, hma]

/-- Witness for the amended C9 at a concrete input: the enqueued record of a
`max_elements=5` cache has no index, and the native call receives `None`
for index and trigger index even though the mapping carries a handle for
every schedule index. -/
theorem cache_max_elements_unset_index_witness :
    (0 : Int) < 5
    ∧ ∃ c : CacheRecord,
      (Plan.init [0, 1, 2] [] Category.CPU).cache (.arr ⟨0, Role.CONST, some 7⟩)
          .absent .absent none (some 5) none none .absent .absent false
        = ({ Plan.init [0, 1, 2] [] Category.CPU with
              commands := (Plan.init [0, 1, 2] [] Category.CPU).commands
                ++ [Command.addCache c] }, .ok (.cacheVal c))
      ∧ c.index = none ∧ c.trigger_index = none ∧ c.max_elements = some 5
      ∧ (Plan.init [0, 1, 2] [] Category.CPU)._add_cache c
            (fun i => some (i + 100)) (fun _ => some 5)
          = .ok { target := some 5, index := none, trigger_index := none,
                  max_elements := some 5,
                  gpuPath := decide ((Plan.init [0, 1, 2] [] Category.CPU).targetCategory
                    = Category.GPU) } :=
  ⟨by decide, cache_max_elements_unset_index (Plan.init [0, 1, 2] [] Category.CPU)
    ⟨0, Role.CONST, some 7⟩ 5 (by decide) none none (fun i => some (i + 100))
    (fun _ => some 5) 5 rfl⟩

/-- C2: over a schedule order with distinct indices, for every level with
`1 <= level <= len(order)`, a `cache` call given only `level` derives
`index = order[len(order) - level]`, and a `cache` call given only that
index derives the same `level = len(order) - position(index)`; the two
representations round-trip through the built cache record. -/
theorem cache_level_index_roundtrip (s : Plan) (a : Array') (l : Int) (i : LoopIndex)
    (hnd : s.schedIndices.Nodup) (h1 : 1 ≤ l) (h2 : l.toNat ≤ s.schedIndices.length)
    (hi : s.schedIndices.get? (s.schedIndices.length - l.toNat) = some i) :
    (∃ c : CacheRecord,
      (s.cache (.arr a) .absent .absent none none none none (.given l) .absent false).2
        = .ok (.cacheVal c)
      ∧ c.index = some i ∧ c.level = some l
      ∧ c.trigger_index = some i ∧ c.trigger_level = some l)
    ∧ (∃ c : CacheRecord,
      (s.cache (.arr a) (.given i) .absent none none none none .absent .absent false).2
        = .ok (.cacheVal c)
      ∧ c.index = some i ∧ c.level = some l) := by
  have hlt : s.schedIndices.length - l.toNat < s.schedIndices.length := by omega
  have hgot : s.schedIndices.get ⟨s.schedIndices.length - l.toNat, hlt⟩ = i := by
    have hq := List.get?_eq_get hlt
    rw [hq] at hi
    exact Option.some.inj hi
  have hpy : pyGet s.schedIndices (-l) = .ok i := by
    rw [pyGet_neg_ok s.schedIndices l h1 h2, hgot]
  have htr : truthyInt (some l) = true := by
    simp only [truthyInt, decide_eq_true_eq]
    omega
  have hle : ¬ (l ≤ 0) := by omega
  have htn : truthyInt (none : Option Int) = false := rfl
  constructor
  · refine ⟨CacheRecord.mk (.arr a) (some i) (some i) (some l) (some l)
      a.requested_layout none none none, ?_, rfl, rfl, rfl, rfl⟩
    simp [Plan.cache, OptIdxArg.isParam, OptIntArg.isParam, OptIdxArg.toOption,
      OptIntArg.toOption, Plan.cacheResolved, countSizing, budgetNonPositive,
      Plan.cacheLevelPath, Plan.deriveIndexLevel, htr, htn, hpy, truthyIdx,
      multicacheInvalidSource, CacheSource.requestedLayout, Plan.deriveTrigger,
      hle, Plan.finishCache, hierarchyCheck]
  · have hfind : listIndex? s.schedIndices i = some (s.schedIndices.length - l.toNat) := by
      have hgi := listIndex?_get s.schedIndices hnd (s.schedIndices.length - l.toNat) hlt
      rwa [hgot] at hgi
    have hlevel : (s.schedIndices.length : Int)
        - ((s.schedIndices.length - l.toNat : Nat) : Int) = l := by omega
    refine ⟨CacheRecord.mk (.arr a) (some i) (some i) (some l) (some l)
      a.requested_layout none none none, ?_, rfl, rfl⟩
    simp [Plan.cache, OptIdxArg.isParam, OptIntArg.isParam, OptIdxArg.toOption,
      OptIntArg.toOption, Plan.cacheResolved, countSizing, budgetNonPositive,
      Plan.cacheLevelPath, Plan.deriveIndexLevel, truthyInt, hfind, htn,
      addAttr_schedIndices, hlevel, truthyIdx, multicacheInvalidSource,
      CacheSource.requestedLayout, Plan.deriveTrigger, hle, Plan.finishCache,
      hierarchyCheck]

/-- Witness for C2 at a concrete input: over the order `[0, 1, 2]` with
`level = 2`, the derived index is `order[3 - 2] = 1`, and giving index `1`
derives `level = 2` back. -/
theorem cache_level_index_roundtrip_witness :
    (∃ c : CacheRecord,
      ((Plan.init [0, 1, 2] [] Category.CPU).cache (.arr ⟨0, Role.CONST, some 7⟩)
          .absent .absent none none none none (.given 2) .absent false).2
        = .ok (.cacheVal c)
      ∧ c.index = some 1 ∧ c.level = some 2
      ∧ c.trigger_index = some 1 ∧ c.trigger_level = some 2)
    ∧ (∃ c : CacheRecord,
      ((Plan.init [0, 1, 2] [] Category.CPU).cache (.arr ⟨0, Role.CONST, some 7⟩)
          (.given 1) .absent none none none none .absent .absent false).2
        = .ok (.cacheVal c)
      ∧ c.index = some 1 ∧ c.level = some 2) :=
  cache_level_index_roundtrip (Plan.init [0, 1, 2] [] Category.CPU)
    ⟨0, Role.CONST, some 7⟩ 2 1 (by decide) (by decide) (by decide) (by decide)

/-- C4: hierarchical `cache` calls whose source is itself a cache: with
level-based sizing on both, the call succeeds exactly when the outer level
strictly exceeds the inner level and is at least the inner trigger level,
failing otherwise with one of the two invalid-hierarchy-level errors
(lines 266-273); with budget sizing on both it succeeds exactly when the
outer budget strictly exceeds the inner one, else the invalid-budget error;
mixing the two sizing modes fails with the mode-mismatch error. -/
theorem cache_hierarchy_validation (s : Plan) (rl nc : Option Nat) :
    (∀ Lo To l tl : Int, 1 ≤ l → l.toNat ≤ s.schedIndices.length →
      1 ≤ tl → tl.toNat ≤ s.schedIndices.length → l ≤ tl →
      (Lo ≤ l →
        (s.cache (.cache (some Lo) (some To) none rl nc) .absent .absent none none none
          none (.given l) (.given tl) false).2 = .error .invalidHierarchyLevelOrder)
      ∧ (l < Lo → Lo < tl →
        (s.cache (.cache (some Lo) (some To) none rl nc) .absent .absent none none none
          none (.given l) (.given tl) false).2 = .error .invalidHierarchyLevelTrigger)
      ∧ (l < Lo → tl ≤ Lo →
        ∃ c : CacheRecord,
          (s.cache (.cache (some Lo) (some To) none rl nc) .absent .absent none none none
            none (.given l) (.given tl) false).2 = .ok (.cacheVal c)
          ∧ c.level = some l ∧ c.trigger_level = some tl))
    ∧ (∀ B m : Int, 0 < m →
      (B ≤ m →
        (s.cache (.cache none none (some B) rl nc) .absent .absent none (some m) none
          none .absent .absent false).2 = .error .invalidHierarchyBudget)
      ∧ (m < B →
        ∃ c : CacheRecord,
          (s.cache (.cache none none (some B) rl nc) .absent .absent none (some m) none
            none .absent .absent false).2 = .ok (.cacheVal c)
          ∧ c.max_elements = some m))
    ∧ (∀ B l : Int, 1 ≤ l → l.toNat ≤ s.schedIndices.length →
      (s.cache (.cache none none (some B) rl nc) .absent .absent none none none
        none (.given l) .absent false).2 = .error .hierarchyModeMismatch)
    ∧ (∀ Lo To m : Int, 0 < m →
      (s.cache (.cache (some Lo) (some To) none rl nc) .absent .absent none (some m) none
        none .absent .absent false).2 = .error .hierarchyModeMismatch) := by
  refine ⟨fun Lo To l tl h1 h2 h3 h4 h5 => ?_, fun B m hm => ?_,
    fun B l h1 h2 => ?_, fun Lo To m hm => ?_⟩
  · have htr : truthyInt (some l) = true := by
      simp only [truthyInt, decide_eq_true_eq]; omega
    have hpyl := pyGet_neg_ok s.schedIndices l h1 h2
    have hpyt := pyGet_neg_ok s.schedIndices tl h3 h4
    have hngt : ¬ (l > tl) := by omega
    have hle : ¬ (l ≤ 0) := by omega
    have hlet : ¬ (tl ≤ 0) := by omega
    refine ⟨fun ho => ?_, fun ho1 ho2 => ?_, fun ho1 ho2 => ?_⟩
    · simp [Plan.cache, OptIdxArg.isParam, OptIntArg.isParam, OptIdxArg.toOption,
        OptIntArg.toOption, Plan.cacheResolved, countSizing, budgetNonPositive,
        Plan.cacheLevelPath, Plan.deriveIndexLevel, htr, hpyl, hpyt,
        multicacheInvalidSource, CacheSource.requestedLayout, Plan.deriveTrigger,
        hngt, hle, hlet, Plan.finishCache, hierarchyCheck, ho]
    · have hno : ¬ (Lo ≤ l) := by omega
      simp [Plan.cache, OptIdxArg.isParam, OptIntArg.isParam, OptIdxArg.toOption,
        OptIntArg.toOption, Plan.cacheResolved, countSizing, budgetNonPositive,
        Plan.cacheLevelPath, Plan.deriveIndexLevel, htr, hpyl, hpyt,
        multicacheInvalidSource, CacheSource.requestedLayout, Plan.deriveTrigger,
        hngt, hle, hlet, Plan.finishCache, hierarchyCheck, hno, ho2]
    · have hno : ¬ (Lo ≤ l) := by omega
      have hnt : ¬ (Lo < tl) := by omega
      refine ⟨CacheRecord.mk (.cache (some Lo) (some To) none rl nc)
        (some (s.schedIndices.get ⟨s.schedIndices.length - l.toNat, by omega⟩))
        (some (s.schedIndices.get ⟨s.schedIndices.length - tl.toNat, by omega⟩))
        (some l) (some tl) rl none none none, ?_, rfl, rfl⟩
      simp [Plan.cache, OptIdxArg.isParam, OptIntArg.isParam, OptIdxArg.toOption,
        OptIntArg.toOption, Plan.cacheResolved, countSizing, budgetNonPositive,
        Plan.cacheLevelPath, Plan.deriveIndexLevel, htr, hpyl, hpyt,
        multicacheInvalidSource, CacheSource.requestedLayout, Plan.deriveTrigger,
        hngt, hle, hlet, Plan.finishCache, hierarchyCheck, hno, hnt]
  · have hb : budgetNonPositive (some m) = false := by
      simp only [budgetNonPositive, decide_eq_false_iff_not]; omega
    refine ⟨fun ho => ?_, fun ho => ?_⟩
    · simp [Plan.cache, OptIdxArg.isParam, OptIntArg.isParam, OptIdxArg.toOption,
        OptIntArg.toOption, Plan.cacheResolved, countSizing, hb,
        Plan.finishCache, hierarchyCheck, ho]
    · have hno : ¬ (B ≤ m) := by omega
      refine ⟨CacheRecord.mk (.cache none none (some B) rl nc) none none none none
        none (some m) none none, ?_, rfl⟩
      simp [Plan.cache, OptIdxArg.isParam, OptIntArg.isParam, OptIdxArg.toOption,
        OptIntArg.toOption, Plan.cacheResolved, countSizing, hb,
        Plan.finishCache, hierarchyCheck, hno]
  · have htr : truthyInt (some l) = true := by
      simp only [truthyInt, decide_eq_true_eq]; omega
    have htn : truthyInt (none : Option Int) = false := rfl
    have hpyl := pyGet_neg_ok s.schedIndices l h1 h2
    have hle : ¬ (l ≤ 0) := by omega
    simp [Plan.cache, OptIdxArg.isParam, OptIntArg.isParam, OptIdxArg.toOption,
      OptIntArg.toOption, Plan.cacheResolved, countSizing, budgetNonPositive,
      Plan.cacheLevelPath, Plan.deriveIndexLevel, htr, htn, hpyl, truthyIdx,
      multicacheInvalidSource, CacheSource.requestedLayout, Plan.deriveTrigger,
      hle, Plan.finishCache, hierarchyCheck]
  · have hb : budgetNonPositive (some m) = false := by
      simp only [budgetNonPositive, decide_eq_false_iff_not]; omega
    simp [Plan.cache, OptIdxArg.isParam, OptIntArg.isParam, OptIdxArg.toOption,
      OptIntArg.toOption, Plan.cacheResolved, countSizing, hb,
      Plan.finishCache, hierarchyCheck]

/-- Witness for C4 at the claim's concrete instances over the order
`[0, 1, 2]`: outer level 3 with inner level 2 succeeds; outer level 2 with
inner level 3 fails with the invalid-hierarchy-level error; plus one
concrete budget pair and one mode mismatch. -/
theorem cache_hierarchy_validation_witness :
    (∃ c : CacheRecord,
      ((Plan.init [0, 1, 2] [] Category.CPU).cache
          (.cache (some 3) (some 3) none none none) .absent .absent none none none
          none (.given 2) (.given 2) false).2 = .ok (.cacheVal c)
      ∧ c.level = some 2 ∧ c.trigger_level = some 2)
    ∧ ((Plan.init [0, 1, 2] [] Category.CPU).cache
          (.cache (some 2) (some 2) none none none) .absent .absent none none none
          none (.given 3) (.given 3) false).2 = .error .invalidHierarchyLevelOrder
    ∧ ((Plan.init [0, 1, 2] [] Category.CPU).cache
          (.cache none none (some 100) none none) .absent .absent none (some 100) none
          none .absent .absent false).2 = .error .invalidHierarchyBudget
    ∧ (∃ c : CacheRecord,
      ((Plan.init [0, 1, 2] [] Category.CPU).cache
          (.cache none none (some 100) none none) .absent .absent none (some 50) none
          none .absent .absent false).2 = .ok (.cacheVal c)
      ∧ c.max_elements = some 50)
    ∧ ((Plan.init [0, 1, 2] [] Category.CPU).cache
          (.cache none none (some 100) none none) .absent .absent none none none
          none (.given 1) .absent false).2 = .error .hierarchyModeMismatch
    ∧ ((Plan.init [0, 1, 2] [] Category.CPU).cache
          (.cache (some 3) (some 3) none none none) .absent .absent none (some 10) none
          none .absent .absent false).2 = .error .hierarchyModeMismatch := by
  refine ⟨?_, ?_, ?_, ?_, ?_, ?_⟩
  · exact ((cache_hierarchy_validation (Plan.init [0, 1, 2] [] Category.CPU) none none).1
      3 3 2 2 (by decide) (by decide) (by decide) (by decide) (by decide)).2.2
      (by decide) (by decide)
  · exact ((cache_hierarchy_validation (Plan.init [0, 1, 2] [] Category.CPU) none none).1
      2 2 3 3 (by decide) (by decide) (by decide) (by decide) (by decide)).1 (by decide)
  · exact ((cache_hierarchy_validation (Plan.init [0, 1, 2] [] Category.CPU) none
      none).2.1 100 100 (by decide)).1 (by decide)
  · exact ((cache_hierarchy_validation (Plan.init [0, 1, 2] [] Category.CPU) none
      none).2.1 100 50 (by decide)).2 (by decide)
  · exact (cache_hierarchy_validation (Plan.init [0, 1, 2] [] Category.CPU) none
      none).2.2.1 100 1 (by decide) (by decide)
  · exact (cache_hierarchy_validation (Plan.init [0, 1, 2] [] Category.CPU) none
      none).2.2.2 3 3 10 (by decide)

/-- C6 counterexample: the claim says a cache call whose trigger level
equals its level is not subject to the CONST/INPUT role restriction, and
that any non-buffer source with multi-level fill fails with the
invalid-multicache-source error.  On the code, an OUTPUT-role array with
`level=2, trigger_level=2` (equal levels, explicitly supplied) fails with
the invalid-multicache-source error (the guard at line 219 fires on any
truthy supplied trigger argument), while a `Cache` source with
`trigger_level=3 > level=1` succeeds (the guard only inspects
`isinstance(source, Array)` sources). -/
theorem multicache_guard_counterexample :
    ((Plan.init [0, 1, 2] [] Category.CPU).cache (.arr ⟨1, Role.OUTPUT, none⟩)
        .absent .absent none none none none (.given 2) (.given 2) false).2
      = .error .invalidMulticacheSource
    ∧ ((Plan.init [0, 1, 2] [] Category.CPU).cache
        (.cache (some 3) (some 3) none none none)
        .absent .absent none none none none (.given 1) (.given 3) false).2
      = .ok (.cacheVal (CacheRecord.mk (.cache (some 3) (some 3) none none none)
          (some 2) (some 0) (some 1) (some 3) none none none none)) :=
  ⟨rfl, rfl⟩

/-- C6 amended: the multicache role restriction fires whenever a truthy
trigger argument (`trigger_index`, or a non-zero `trigger_level`) is
explicitly supplied and the source is an `Array` whose role is neither
CONST nor INPUT — even when the supplied trigger level equals the cache
level; `Cache` sources are never subject to the check, and a call that
supplies no trigger argument (trigger defaulting to the cache's own
index/level) is not subject to it either. -/
theorem multicache_guard_on_supplied_trigger (s : Plan) :
    (∀ (a : Array') (l tl : Int), a.role ≠ Role.CONST → a.role ≠ Role.INPUT →
      1 ≤ l → l.toNat ≤ s.schedIndices.length → tl ≠ 0 →
      (s.cache (.arr a) .absent .absent none none none none (.given l) (.given tl)
        false).2 = .error .invalidMulticacheSource)
    ∧ (∀ (a : Array') (i ti : LoopIndex) (pos : Nat), a.role ≠ Role.CONST →
      a.role ≠ Role.INPUT → listIndex? s.schedIndices i = some pos →
      (s.cache (.arr a) (.given i) (.given ti) none none none none .absent .absent
        false).2 = .error .invalidMulticacheSource)
    ∧ (∀ (a : Array') (l : Int), 1 ≤ l → l.toNat ≤ s.schedIndices.length →
      ∃ c : CacheRecord,
        (s.cache (.arr a) .absent .absent none none none none (.given l) .absent
          false).2 = .ok (.cacheVal c)
        ∧ c.level = some l ∧ c.trigger_level = some l) := by
  refine ⟨fun a l tl hc hi h1 h2 ht => ?_, fun a i ti pos hc hi hfind => ?_,
    fun a l h1 h2 => ?_⟩
  · have htr : truthyInt (some l) = true := by
      simp only [truthyInt, decide_eq_true_eq]; omega
    have htt : truthyInt (some tl) = true := by
      simp only [truthyInt, decide_eq_true_eq]; omega
    have hmc : multicacheInvalidSource (.arr a) = true := by
      simp [multicacheInvalidSource, hc, hi]
    have hpyl := pyGet_neg_ok s.schedIndices l h1 h2
    simp [Plan.cache, OptIdxArg.isParam, OptIntArg.isParam, OptIdxArg.toOption,
      OptIntArg.toOption, Plan.cacheResolved, countSizing, budgetNonPositive,
      Plan.cacheLevelPath, Plan.deriveIndexLevel, htr, htt, hmc, hpyl]
  · have hmc : multicacheInvalidSource (.arr a) = true := by
      simp [multicacheInvalidSource, hc, hi]
    have htn : truthyInt (none : Option Int) = false := rfl
    simp [Plan.cache, OptIdxArg.isParam, OptIntArg.isParam, OptIdxArg.toOption,
      OptIntArg.toOption, Plan.cacheResolved, countSizing, budgetNonPositive,
      Plan.cacheLevelPath, Plan.deriveIndexLevel, truthyInt, htn,
      addAttr_schedIndices, hfind, truthyIdx, hmc]
  · have htr : truthyInt (some l) = true := by
      simp only [truthyInt, decide_eq_true_eq]; omega
    have htn : truthyInt (none : Option Int) = false := rfl
    have hle : ¬ (l ≤ 0) := by omega
    have hpyl := pyGet_neg_ok s.schedIndices l h1 h2
    refine ⟨CacheRecord.mk (.arr a)
      (some (s.schedIndices.get ⟨s.schedIndices.length - l.toNat, by omega⟩))
      (some (s.schedIndices.get ⟨s.schedIndices.length - l.toNat, by omega⟩))
      (some l) (some l) a.requested_layout none none none, ?_, rfl, rfl⟩
    simp [Plan.cache, OptIdxArg.isParam, OptIntArg.isParam, OptIdxArg.toOption,
      OptIntArg.toOption, Plan.cacheResolved, countSizing, budgetNonPositive,
      Plan.cacheLevelPath, Plan.deriveIndexLevel, htr, htn, hpyl, truthyIdx,
      multicacheInvalidSource, CacheSource.requestedLayout, Plan.deriveTrigger,
      hle, Plan.finishCache, hierarchyCheck]

/-- Witness for the amended C6 at concrete inputs over `[0, 1, 2]`: an
OUTPUT array with an explicitly supplied equal trigger level fails with the
invalid-multicache-source error; an OUTPUT array with a supplied trigger
index fails the same way; an OUTPUT array without trigger arguments
succeeds with trigger level equal to its level. -/
theorem multicache_guard_on_supplied_trigger_witness :
    ((Plan.init [0, 1, 2] [] Category.CPU).cache (.arr ⟨1, Role.OUTPUT, none⟩)
        .absent .absent none none none none (.given 2) (.given 2) false).2
      = .error .invalidMulticacheSource
    ∧ ((Plan.init [0, 1, 2] [] Category.CPU).cache (.arr ⟨1, Role.OUTPUT, none⟩)
        (.given 1) (.given 1) none none none none .absent .absent false).2
      = .error .invalidMulticacheSource
    ∧ (∃ c : CacheRecord,
      ((Plan.init [0, 1, 2] [] Category.CPU).cache (.arr ⟨1, Role.OUTPUT, none⟩)
          .absent .absent none none none none (.given 2) .absent false).2
        = .ok (.cacheVal c)
      ∧ c.level = some 2 ∧ c.trigger_level = some 2) := by
  refine ⟨?_, ?_, ?_⟩
  · exact (multicache_guard_on_supplied_trigger (Plan.init [0, 1, 2] [] Category.CPU)).1
      ⟨1, Role.OUTPUT, none⟩ 2 2 (by decide) (by decide) (by decide) (by decide) (by decide)
  · exact (multicache_guard_on_supplied_trigger (Plan.init [0, 1, 2] [] Category.CPU)).2.1
      ⟨1, Role.OUTPUT, none⟩ 1 1 1 (by decide) (by decide) (by decide)
  · exact (multicache_guard_on_supplied_trigger (Plan.init [0, 1, 2] [] Category.CPU)).2.2
      ⟨1, Role.OUTPUT, none⟩ 2 (by decide) (by decide)

